import Mathlib

/-!
Verification of the mongo-audit change-capture pipeline (src/auditManager.js)
against its specification, via a shallow embedding in Lean.

Modelling conventions, matching the JavaScript source:
* A document is a flat list of field/value pairs.
* A user-supplied function may throw, so it is embedded as
  `Doc → Except String Doc`.
* JavaScript `undefined`/`null`/falsy fields are embedded as `Option.none`;
  a field that may hold a non-array value is embedded with `JField`, whose
  `notArr` constructor stands for any value failing `Array.isArray`.
* The database driver (connectionStatus, usersInfo, collMod, insertOne) is a
  black-box collaborator; its responses are supplied by a `ProvisionEnv`
  record, and writes/notifications are recorded as an `Effect` trace.
* `new Date()` timestamps are embedded as an explicit `now : Nat` parameter.
-/

namespace MongoAudit

/-- A JSON-like flat document: a list of field/value pairs. -/
abbrev Doc := List (String × String)

/-- A user-supplied JavaScript function: applying it may throw. -/
abbrev JsFun := Doc → Except String Doc

/-- One privilege entry of a usersInfo document; `priv.actions` may be
absent, which the source defaults with `priv.actions || []`. -/
structure Priv where
  actions : Option (List String)
deriving DecidableEq

/-- One role entry of a usersInfo document; the source reads `role.role`. -/
structure RoleEntry where
  role : String
deriving DecidableEq

/-- A JavaScript field that the source guards with `Array.isArray`:
either an array of `α`, or any non-array value (`notArr`). -/
inductive JField (α : Type) where
  | arr : List α → JField α
  | notArr : JField α
deriving DecidableEq

/-- The user document returned by the usersInfo admin command, restricted to
the fields read by `canRunCollMod`. -/
structure UserData where
  inheritedPrivileges : JField Priv
  privileges : JField Priv
  roles : Option (List RoleEntry)
  inheritedRoles : Option (List RoleEntry)
deriving DecidableEq

/-- Embeds the privilege test applied inside both `some` callbacks of
`canRunCollMod`: `(priv.actions || []).includes("collMod") ||
(priv.actions || []).includes("anyAction")`. -/
def privHasCollMod (priv : Priv) : Bool :=
  let actions := priv.actions.getD []
  actions.contains "collMod" || actions.contains "anyAction"

/-- The fixed administrative allow-list used by `canRunCollMod` for both the
explicit and the inherited role checks. -/
def adminRoleList : List String :=
  ["dbAdmin", "dbOwner", "root", "atlasAdmin", "dbAdminAnyDatabase"]

/-- Embeds the role test `[...].includes(role.role)` of `canRunCollMod`. -/
def roleIsAdmin (r : RoleEntry) : Bool :=
  adminRoleList.contains r.role

/-- Embeds the guarded privilege-set scan shared by steps 1 and 2 of
`canRunCollMod`: `Array.isArray(field) && field.some(privHasCollMod)`;
any non-array value fails the guard and contributes false. -/
def privFieldCheck (f : JField Priv) : Bool :=
  match f with
  | JField.arr xs => xs.any privHasCollMod
  | JField.notArr => false

/-- Embeds `canRunCollMod(userData)` from src/auditManager.js.  The early
`return true` statements of the source become the `if ... then true else`
chain; `none` embeds a missing `userData` (`if (!userData) return false`). -/
def canRunCollMod (userData : Option UserData) : Bool :=
  match userData with
  | none => false
  | some u =>
    if privFieldCheck u.inheritedPrivileges then true
    else if privFieldCheck u.privileges then true
    else if (u.roles.getD []).any roleIsAdmin then true
    else if (u.inheritedRoles.getD []).any roleIsAdmin then true
    else false

/-- Modelled from the spec, section 4.1: an entry of a privilege set grants
elevation when its actions include collMod or the wildcard anyAction. -/
def specPrivGrants (entry : Priv) : Bool :=
  (entry.actions.getD []).contains "collMod"
    || (entry.actions.getD []).contains "anyAction"

/-- Modelled from the spec, section 4.1: some entry of a privilege set grants
collMod or anyAction; a non-array field holds no entries. -/
def specPrivSetGrants : JField Priv → Bool
  | JField.arr entries => entries.any specPrivGrants
  | JField.notArr => false

/-- Modelled from the spec, section 4.1: a role set intersects the fixed
administrative allow-list. -/
def specRoleSetIntersects (roles : Option (List RoleEntry)) : Bool :=
  (roles.getD []).any (fun r => adminRoleList.contains r.role)

/-- Modelled from the spec, sections 4.1 and 8 (P1): canElevate holds iff at
least one of inherited-privileges, explicit-privileges, explicit-roles,
inherited-roles satisfies its condition; an absent profile yields false. -/
def specCanElevate (profile : Option UserData) : Bool :=
  match profile with
  | none => false
  | some u =>
    specPrivSetGrants u.inheritedPrivileges
      || (specPrivSetGrants u.privileges
      || (specRoleSetIntersects u.roles
      || specRoleSetIntersects u.inheritedRoles))

/-- Replaces an absent actions list by an empty one, as the source default
`priv.actions || []` does. -/
def normalizePriv (p : Priv) : Priv :=
  { actions := some (p.actions.getD []) }

/-- Replaces a non-array privilege field by an empty array, matching the
behaviour of the `Array.isArray` guards of `canRunCollMod`. -/
def normalizeField (f : JField Priv) : JField Priv :=
  match f with
  | JField.arr xs => JField.arr (xs.map normalizePriv)
  | JField.notArr => JField.arr []

/-- The well-formed profile that the defaulting in `canRunCollMod` makes any
malformed profile behave like: non-array privilege fields become empty
arrays, absent role lists become empty lists, absent actions become empty. -/
def normalizeProfile (u : UserData) : UserData :=
  { inheritedPrivileges := normalizeField u.inheritedPrivileges
    privileges := normalizeField u.privileges
    roles := some (u.roles.getD [])
    inheritedRoles := some (u.inheritedRoles.getD []) }

/-- The provisioning outcome vocabulary of spec section 4.2; the embedding
of `ensurePreImageEnabled` labels each of its return paths with one of
these. -/
inductive ProvisionOutcome where
  | enabled
  | skippedNoPrincipal
  | skippedNoPermission
  | failedAtStorage (reason : String)
deriving DecidableEq

/-- One entry of `connectionStatus.authInfo.authenticatedUsers`: the source
destructures it as `const { user, db: userDb } = userInfo`. -/
structure Login where
  user : String
  db : String
deriving DecidableEq

/-- Responses of the black-box database driver used during provisioning:
the authenticated-user list of the connectionStatus command, the user list
returned by the usersInfo command, and the result of the collMod command
per collection name. -/
structure ProvisionEnv where
  authenticatedUsers : List Login
  usersInfo : Login → List UserData
  collModResult : String → Except String Unit

/-- The mutable fields of an AuditManager instance.  `client` holds the
connected URI (none embeds null), `db` is the database handle obtained from
the client (none embeds null). -/
structure MState where
  client : Option String
  db : Option Unit
  collections : List String
  auditCollection : String
  transform : Option JsFun

/-- Embeds the AuditManager constructor: all fields null or empty, with the
default audit collection name. -/
def newAuditManager : MState :=
  { client := none
    db := none
    collections := []
    auditCollection := "audit_logs"
    transform := none }

/-- Embeds `ensurePreImageEnabled(collectionName)`.  Returns the spec-level
outcome of the run, a flag recording whether the storage-level collMod
command was attempted, and the manager state after the call.  Mirroring the
source: a missing authenticated user or an unresolvable user document
returns early (skippedNoPrincipal); the awaited `canRunCollMod` result is
bound and then discarded, exactly as in the source; the collMod attempt is
wrapped in try/catch, so a storage error becomes failedAtStorage. -/
def ensurePreImageEnabled (env : ProvisionEnv) (s : MState)
    (collectionName : String) : (ProvisionOutcome × Bool) × MState :=
  match env.authenticatedUsers.head? with
  | none => ((ProvisionOutcome.skippedNoPrincipal, false), s)
  | some login =>
    match (env.usersInfo login).head? with
    | none => ((ProvisionOutcome.skippedNoPrincipal, false), s)
    | some userData =>
      let _permission := canRunCollMod (some userData)
      match env.collModResult collectionName with
      | Except.ok _ => ((ProvisionOutcome.enabled, true), s)
      | Except.error e => ((ProvisionOutcome.failedAtStorage e, true), s)

/-- The options record consumed by the initialization entry point; none
embeds a falsy (absent or empty) JavaScript value. -/
structure InitOptions where
  uri : Option String
  collections : Option (List String)
  auditCollection : Option String
  transform : Option JsFun

/-- Embeds `initialize(options)` of src/auditManager.js (named initAudit
because the source name is reserved in Lean).  Fatal errors are the thrown
exceptions of the source; on success it returns the updated manager state
together with the provisioning result of each audited collection, in
order. -/
def initAudit (env : ProvisionEnv) (s : MState) (options : InitOptions) :
    Except String (MState × List (ProvisionOutcome × Bool)) :=
  match options.uri with
  | none => Except.error "Mongo URI is required"
  | some uri =>
    match options.collections with
    | none => Except.error "Collections to audit are required"
    | some colls =>
      if colls.length = 0 then Except.error "Collections to audit are required"
      else
        let s1 : MState :=
          { client := some uri
            db := some ()
            collections := colls
            auditCollection :=
              match options.auditCollection with
              | some a => a
              | none => s.auditCollection
            transform :=
              match options.transform with
              | some f => some f
              | none => s.transform }
        Except.ok (s1, colls.map (fun c => (ensurePreImageEnabled env s1 c).1))

/-- One opened change feed, recording the watch options the source passes:
`fullDocument: "updateLookup"` and `fullDocumentBeforeChange: "required"`. -/
structure Feed where
  collection : String
  fullDocument : String
  fullDocumentBeforeChange : String
deriving DecidableEq

/-- Embeds `start()`: throws when `this.db` is null, otherwise opens one
change feed per configured collection; the manager state is returned
alongside. -/
def start (s : MState) : (Except String (List Feed)) × MState :=
  match s.db with
  | none => (Except.error "Call initialize() first", s)
  | some _ =>
    (Except.ok (s.collections.map (fun collName =>
      { collection := collName
        fullDocument := "updateLookup"
        fullDocumentBeforeChange := "required" })), s)

/-- The `documentKey` of a change event; the source reads `documentKey._id`. -/
structure DocKey where
  _id : String
deriving DecidableEq

/-- A normalized change event as destructured by `createAuditDoc`: operation
type, optional after-image (`fullDocument`), optional before-image
(`fullDocumentBeforeChange`), and the document key. -/
structure ChangeEvent where
  operationType : String
  fullDocument : Option Doc
  fullDocumentBeforeChange : Option Doc
  documentKey : DocKey
deriving DecidableEq

/-- The audit record shape returned by `createAuditDoc`. -/
structure AuditRecord where
  collection : String
  documentId : String
  operation : String
  timestamp : Nat
  before : Option Doc
  after : Option Doc
deriving DecidableEq

/-- Embeds `img && this.transform ? this.transform(img) : img` where the
user transform may throw: a present image with a configured transform is
transformed (propagating a thrown error); otherwise the image (or its
absence) passes through unchanged. -/
def applyTransform (transform : Option JsFun) (img : Option Doc) :
    Except String (Option Doc) :=
  match img, transform with
  | some d, some f =>
    match f d with
    | Except.ok d2 => Except.ok (some d2)
    | Except.error e => Except.error e
  | _, _ => Except.ok img

/-- Embeds `createAuditDoc(change, collectionName)`.  `now` embeds the
`new Date()` taken at build time.  The before-image is transformed first,
then the after-image, as in the source; a throw from the user transform
propagates as an error and the manager state is unchanged either way. -/
def createAuditDoc (s : MState) (now : Nat) (change : ChangeEvent)
    (collectionName : String) : (Except String AuditRecord) × MState :=
  let before := change.fullDocumentBeforeChange
  let after := change.fullDocument
  match applyTransform s.transform before with
  | Except.error e => (Except.error e, s)
  | Except.ok transformedBefore =>
    match applyTransform s.transform after with
    | Except.error e => (Except.error e, s)
    | Except.ok transformedAfter =>
      (Except.ok
        { collection := collectionName
          documentId := change.documentKey._id
          operation := change.operationType
          timestamp := now
          before := transformedBefore
          after := transformedAfter }, s)

/-- An observable side effect of the per-event change handler: an insert
into a named collection, or the notification of one registered observer
(observers are numbered in registration order, as an EventEmitter keeps
its listeners). -/
inductive Effect where
  | insert (collection : String) (record : AuditRecord)
  | notify (observer : Nat) (record : AuditRecord)
deriving DecidableEq

/-- Embeds the change-stream listener installed by `start()` for one event:
build the audit record, await the insert into the audit collection, then
emit the audit event to every registered observer in order.  If building
the record throws (a throwing user transform), the rejected handler
produces no effects at all: no insert and no notification. -/
def handleChange (observers : List Nat) (now : Nat) (s : MState)
    (collName : String) (change : ChangeEvent) : (List Effect) × MState :=
  let res := createAuditDoc s now change collName
  match res.1 with
  | Except.error _ => ([], res.2)
  | Except.ok auditDoc =>
    (Effect.insert res.2.auditCollection auditDoc ::
      observers.map (fun o => Effect.notify o auditDoc), res.2)

/-- Embeds the EventEmitter dispatch of one change feed over a finite event
history: each arriving event invokes the installed listener afresh (a
rejected listener promise does not unregister the listener or close the
feed), so the effect trace of each event is computed independently and in
arrival order. -/
def processFeed (observers : List Nat) (now : Nat) (s : MState)
    (collName : String) (events : List ChangeEvent) : List (List Effect) :=
  events.map (fun e => (handleChange observers now s collName e).1)

/-- A user document granting nothing: empty privilege arrays and empty role
lists, so `canRunCollMod` evaluates to false on it. -/
def noPermUser : UserData :=
  { inheritedPrivileges := JField.arr []
    privileges := JField.arr []
    roles := some []
    inheritedRoles := some [] }

/-- A driver environment whose authenticated principal is app@admin,
resolved to `noPermUser`, and whose collMod command succeeds. -/
def c2Env : ProvisionEnv :=
  { authenticatedUsers := [{ user := "app", db := "admin" }]
    usersInfo := fun _ => [noPermUser]
    collModResult := fun _ => Except.ok () }

/-- A driver environment with no authenticated principal and a failing
storage layer. -/
def failingStorageEnv : ProvisionEnv :=
  { authenticatedUsers := []
    usersInfo := fun _ => []
    collModResult := fun _ => Except.error "storage unavailable" }

/-- Lifts a total document function to a user function that never throws. -/
def liftTotal (f : Doc → Doc) : JsFun :=
  fun d => Except.ok (f d)

/-- The redacting transform of spec property P4: every document maps to the
single-field document redacted = true. -/
def redactFn : Doc → Doc :=
  fun _ => [("redacted", "true")]

/-- A manager state configured with the redacting transform. -/
def redactState : MState :=
  { newAuditManager with transform := some (liftTotal redactFn) }

/-- The document on which `failingTransform` throws. -/
def boomDoc : Doc := [("k", "boom")]

/-- A user transform that throws on `boomDoc` and is the identity
elsewhere. -/
def failingTransform : JsFun :=
  fun d => if d = boomDoc then Except.error "boom" else Except.ok d

/-- A manager state configured with the throwing transform. -/
def throwingState : MState :=
  { newAuditManager with transform := some failingTransform }

/-- A change event whose transform application succeeds. -/
def okChange : ChangeEvent :=
  { operationType := "insert"
    fullDocument := some [("a", "1")]
    fullDocumentBeforeChange := none
    documentKey := { _id := "1" } }

/-- A change event whose before-image makes the throwing transform raise. -/
def badChange : ChangeEvent :=
  { operationType := "update"
    fullDocument := some [("a", "2")]
    fullDocumentBeforeChange := some boomDoc
    documentKey := { _id := "2" } }

/-- The delete event of the example scenario in spec section 8. -/
def sampleDelete : ChangeEvent :=
  { operationType := "delete"
    fullDocument := none
    fullDocumentBeforeChange := some [("status", "paid")]
    documentKey := { _id := "7" } }

/-- The audit record produced for `sampleDelete` at time 5 with no
transform configured. -/
def sampleDeleteRecord : AuditRecord :=
  { collection := "orders"
    documentId := "7"
    operation := "delete"
    timestamp := 5
    before := some [("status", "paid")]
    after := none }

/-- Recognizes observer-notification effects in a handler trace. -/
def isNotify : Effect → Bool
  | Effect.notify _ _ => true
  | Effect.insert _ _ => false

theorem ensurePreImageEnabled_state (env : ProvisionEnv) (s : MState)
    (c : String) : (ensurePreImageEnabled env s c).2 = s := by
  unfold ensurePreImageEnabled
  split
  · rfl
  · split
    · rfl
    · split <;> rfl

theorem createAuditDoc_state (s : MState) (now : Nat) (change : ChangeEvent)
    (c : String) : (createAuditDoc s now change c).2 = s := by
  simp only [createAuditDoc]
  split
  · rfl
  · split <;> rfl

theorem handleChange_state (observers : List Nat) (now : Nat) (s : MState)
    (collName : String) (change : ChangeEvent) :
    (handleChange observers now s collName change).2 = s := by
  simp only [handleChange]
  split <;> simp [createAuditDoc_state]

theorem start_state (s : MState) : (start s).2 = s := by
  unfold start
  split <;> rfl

theorem if_chain_eq_or (a b c d : Bool) :
    (if a then true else if b then true else
      if c then true else if d then true else false) = (a || (b || (c || d))) := by
  cases a <;> cases b <;> cases c <;> cases d <;> simp

theorem privFieldCheck_eq_specPrivSetGrants :
    privFieldCheck = specPrivSetGrants :=
  funext fun f => by cases f <;> rfl

/-- Claim C1: for every profile, `canRunCollMod` returns true iff at least
one of the four checks of spec section 4.1 holds (inherited privileges,
explicit privileges, explicit roles, inherited roles), and an absent profile
yields false; that is, it coincides with the spec-side `specCanElevate`. -/
theorem canRunCollMod_iff_specCanElevate (profile : Option UserData) :
    canRunCollMod profile = specCanElevate profile := by
  cases profile with
  | none => rfl
  | some u =>
    simp only [canRunCollMod, specCanElevate]
    rw [if_chain_eq_or, privFieldCheck_eq_specPrivSetGrants]
    rfl

/-- Claim C10: `canRunCollMod` is total over malformed profile documents and
treats every malformed field as empty: a profile evaluates exactly as its
normalization in which non-array privilege fields, absent role lists and
absent actions lists are replaced by empty ones.  In particular the function
always returns a boolean and never throws. -/
theorem canRunCollMod_malformed_treated_empty (u : UserData) :
    canRunCollMod (some u) = canRunCollMod (some (normalizeProfile u)) := by
  obtain ⟨ip, pv, rs, irs⟩ := u
  have hpriv : ∀ p : Priv, privHasCollMod (normalizePriv p) = privHasCollMod p := by
    intro p
    cases hp : p.actions <;> simp [privHasCollMod, normalizePriv, hp]
  cases ip <;> cases pv <;> cases rs <;> cases irs <;>
    simp [canRunCollMod, privFieldCheck, normalizeProfile, normalizeField,
      List.any_map, Function.comp, hpriv]

/-- Claim C2 (code-bug demonstration): for the authenticated principal
app@admin whose user document grants nothing, `canRunCollMod` evaluates to
false, yet `ensurePreImageEnabled` still attempts the storage-level collMod
command (attempt flag true) and reports the enabled outcome rather than
skippedNoPermission: the awaited permission check is discarded by the
source. -/
theorem ensurePreImageEnabled_ignores_permission :
    canRunCollMod (some noPermUser) = false ∧
    (ensurePreImageEnabled c2Env newAuditManager "orders").1
      = (ProvisionOutcome.enabled, true) :=
  ⟨rfl, rfl⟩

/-- Claim C4: initAudit fails exactly when the URI is absent or the
collection list is absent or empty, and start fails exactly when no
database handle has been established; in every other configuration neither
raises a fatal error. -/
theorem initAudit_start_fatal_iff (env : ProvisionEnv) (s t : MState)
    (options : InitOptions) :
    ((initAudit env s options).isOk = true ↔
      (options.uri.isSome = true ∧
        ∃ colls, options.collections = some colls ∧ colls ≠ [])) ∧
    ((start t).1.isOk = true ↔ t.db.isSome = true) := by
  constructor
  · cases hu : options.uri with
    | none => simp [initAudit, hu, Except.isOk, Except.toBool]
    | some uri =>
      cases hc : options.collections with
      | none => simp [initAudit, hu, hc, Except.isOk, Except.toBool]
      | some colls =>
        by_cases hl : colls.length = 0
        · have he : colls = [] := List.length_eq_zero.mp hl
          simp [initAudit, hu, hc, hl, he, Except.isOk, Except.toBool]
        · have hne : colls ≠ [] := by
            intro h
            exact hl (by simp [h])
          simp [initAudit, hu, hc, hl, hne, Except.isOk, Except.toBool]
  · cases ht : t.db <;> simp [start, ht, Except.isOk, Except.toBool]

/-- Claim C9: once initialized, the configuration is never modified again:
start, ensurePreImageEnabled, createAuditDoc and the per-event change
handler all return the manager state unchanged, so the client, db,
collections, auditCollection and transform fields persist. -/
theorem config_immutable_after_init (env : ProvisionEnv) (s : MState)
    (collName : String) (now : Nat) (change : ChangeEvent)
    (observers : List Nat) :
    (start s).2 = s ∧
    (ensurePreImageEnabled env s collName).2 = s ∧
    (createAuditDoc s now change collName).2 = s ∧
    (handleChange observers now s collName change).2 = s :=
  ⟨start_state s, ensurePreImageEnabled_state env s collName,
    createAuditDoc_state s now change collName,
    handleChange_state observers now s collName change⟩

/-- Claim C3: provisioning failures are non-fatal.  For any driver
environment (including one with no resolvable principal, insufficient
permission, or a failing storage-level collMod) and any well-formed
configuration, initAudit succeeds, and start on the resulting state opens
one change feed per configured collection; no provisioning failure
propagates as a fatal error. -/
theorem initAudit_nonfatal_provisioning (env : ProvisionEnv) (s : MState)
    (options : InitOptions) (u : String) (colls : List String)
    (huri : options.uri = some u) (hcolls : options.collections = some colls)
    (hne : colls ≠ []) :
    (initAudit env s options).isOk = true ∧
    ∀ s1 outcomes, initAudit env s options = Except.ok (s1, outcomes) →
      (start s1).1 = Except.ok (colls.map (fun collName =>
        { collection := collName
          fullDocument := "updateLookup"
          fullDocumentBeforeChange := "required" })) := by
  have hl : ¬ colls.length = 0 := by
    intro h
    exact hne (List.length_eq_zero.mp h)
  constructor
  · simp [initAudit, huri, hcolls, hl, Except.isOk, Except.toBool]
  · intro s1 outcomes h
    simp only [initAudit, huri, hcolls, hl, if_neg, Except.ok.injEq,
      Prod.mk.injEq, reduceIte] at h
    obtain ⟨h1, _⟩ := h
    rw [← h1]
    simp [start]

/-- Claim C3 witness at a concrete input: an environment with no principal
and a failing storage layer, with one collection configured. -/
theorem initAudit_nonfatal_provisioning_witness :
    (initAudit failingStorageEnv newAuditManager
      { uri := some "mongodb://localhost:27017/mydb"
        collections := some ["orders"]
        auditCollection := none
        transform := none }).isOk = true ∧
    ∀ s1 outcomes, initAudit failingStorageEnv newAuditManager
        { uri := some "mongodb://localhost:27017/mydb"
          collections := some ["orders"]
          auditCollection := none
          transform := none } = Except.ok (s1, outcomes) →
      (start s1).1 = Except.ok (["orders"].map (fun collName =>
        { collection := collName
          fullDocument := "updateLookup"
          fullDocumentBeforeChange := "required" })) :=
  initAudit_nonfatal_provisioning failingStorageEnv newAuditManager
    { uri := some "mongodb://localhost:27017/mydb"
      collections := some ["orders"]
      auditCollection := none
      transform := none }
    "mongodb://localhost:27017/mydb" ["orders"] rfl rfl (by simp)

/-- Claim C5: for an update event with document key X, before-image B and
after-image A, and no transform configured, createAuditDoc returns a record
with documentId X, operation update, before B, after A, the source
collection name, and a timestamp at least the build-time clock; absent
images stay none. -/
theorem createAuditDoc_update_shape (s : MState) (now : Nat) (X : String)
    (B A : Option Doc) (coll : String) (hT : s.transform = none) :
    ∃ r : AuditRecord,
      (createAuditDoc s now
        { operationType := "update"
          fullDocument := A
          fullDocumentBeforeChange := B
          documentKey := { _id := X } } coll).1 = Except.ok r ∧
      r.documentId = X ∧ r.operation = "update" ∧ r.before = B ∧
      r.after = A ∧ r.collection = coll ∧ now ≤ r.timestamp := by
  refine ⟨{ collection := coll
            documentId := X
            operation := "update"
            timestamp := now
            before := B
            after := A }, ?_, rfl, rfl, rfl, rfl, rfl, Nat.le_refl now⟩
  cases B <;> cases A <;> simp [createAuditDoc, applyTransform, hT]

/-- Claim C5 witness at a concrete update event with both images present. -/
theorem createAuditDoc_update_shape_witness :
    ∃ r : AuditRecord,
      (createAuditDoc newAuditManager 5
        { operationType := "update"
          fullDocument := some [("status", "shipped")]
          fullDocumentBeforeChange := some [("status", "paid")]
          documentKey := { _id := "7" } } "orders").1 = Except.ok r ∧
      r.documentId = "7" ∧ r.operation = "update" ∧
      r.before = some [("status", "paid")] ∧
      r.after = some [("status", "shipped")] ∧
      r.collection = "orders" ∧ 5 ≤ r.timestamp :=
  createAuditDoc_update_shape newAuditManager 5 "7"
    (some [("status", "paid")]) (some [("status", "shipped")]) "orders" rfl

/-- Claim C6: with a (total) transform configured, createAuditDoc applies it
independently to each present image and never to an absent one: the
resulting before and after fields are exactly the Option.map of the
transform over the corresponding images, so an absent image stays none. -/
theorem createAuditDoc_transform_isolation (s : MState) (now : Nat)
    (change : ChangeEvent) (coll : String) (f : Doc → Doc)
    (hT : s.transform = some (liftTotal f)) :
    ∃ r : AuditRecord, (createAuditDoc s now change coll).1 = Except.ok r ∧
      r.before = change.fullDocumentBeforeChange.map f ∧
      r.after = change.fullDocument.map f := by
  cases hB : change.fullDocumentBeforeChange <;>
    cases hA : change.fullDocument <;>
      simp [createAuditDoc, applyTransform, hT, liftTotal, hB, hA]

/-- Claim C6 witness: the redacting transform of spec property P4 applied
to an insert event (absent before-image, present after-image) leaves the
before field none and redacts the after field. -/
theorem createAuditDoc_transform_isolation_witness :
    ∃ r : AuditRecord,
      (createAuditDoc redactState 3 okChange "users").1 = Except.ok r ∧
      r.before = okChange.fullDocumentBeforeChange.map redactFn ∧
      r.after = okChange.fullDocument.map redactFn :=
  createAuditDoc_transform_isolation redactState 3 okChange "users" redactFn rfl

/-- Claim C7: for every change event whose record builds successfully, the
handler trace persists the record first (the insert is at position 0),
every observer notification comes strictly after the persistence write,
every notification carries exactly the committed record, and each
registered observer receives it exactly once. -/
theorem handleChange_persist_before_notify (s : MState) (observers : List Nat)
    (now : Nat) (collName : String) (change : ChangeEvent) (r : AuditRecord)
    (hok : (createAuditDoc s now change collName).1 = Except.ok r)
    (hnd : observers.Nodup) :
    (handleChange observers now s collName change).1.get? 0
        = some (Effect.insert s.auditCollection r) ∧
    (∀ j e, (handleChange observers now s collName change).1.get? j = some e →
        isNotify e = true → 0 < j) ∧
    (∀ j o rec, (handleChange observers now s collName change).1.get? j
        = some (Effect.notify o rec) → rec = r) ∧
    (∀ o, o ∈ observers →
        (handleChange observers now s collName change).1.count
          (Effect.notify o r) = 1) := by
  have htr : (handleChange observers now s collName change).1
      = Effect.insert s.auditCollection r ::
          observers.map (fun o => Effect.notify o r) := by
    simp only [handleChange, hok, createAuditDoc_state]
  refine ⟨?_, ?_, ?_, ?_⟩
  · rw [htr]
    rfl
  · intro j e hj hn
    cases j with
    | zero =>
      rw [htr] at hj
      simp only [List.get?_cons_zero, Option.some.injEq] at hj
      rw [← hj] at hn
      simp [isNotify] at hn
    | succ n => exact Nat.succ_pos n
  · intro j o rec hj
    cases j with
    | zero =>
      rw [htr] at hj
      simp at hj
    | succ n =>
      rw [htr] at hj
      simp only [List.get?_cons_succ] at hj
      rw [List.get?_map] at hj
      cases ho : observers.get? n with
      | none =>
        rw [ho] at hj
        simp at hj
      | some o2 =>
        rw [ho] at hj
        simp only [Option.map_some', Option.some.injEq, Effect.notify.injEq] at hj
        exact hj.2.symm
  · intro o ho
    have hinj : Function.Injective (fun o : Nat => Effect.notify o r) := by
      intro a b hab
      simpa using hab
    rw [htr, List.count_cons]
    have hone : (observers.map (fun o => Effect.notify o r)).count
        (Effect.notify o r) = 1 :=
      List.count_eq_one_of_mem (hnd.map hinj) (List.mem_map_of_mem _ ho)
    simp [hone]

/-- Claim C7 witness: the example scenario of spec section 8, a delete of
document 7 on the orders collection with two registered observers. -/
theorem handleChange_persist_before_notify_witness :
    (handleChange [0, 1] 5 newAuditManager "orders" sampleDelete).1.get? 0
        = some (Effect.insert newAuditManager.auditCollection
            sampleDeleteRecord) ∧
    (∀ j e, (handleChange [0, 1] 5 newAuditManager "orders"
          sampleDelete).1.get? j = some e → isNotify e = true → 0 < j) ∧
    (∀ j o rec, (handleChange [0, 1] 5 newAuditManager "orders"
          sampleDelete).1.get? j = some (Effect.notify o rec) →
        rec = sampleDeleteRecord) ∧
    (∀ o, o ∈ [0, 1] →
        (handleChange [0, 1] 5 newAuditManager "orders"
            sampleDelete).1.count
          (Effect.notify o sampleDeleteRecord) = 1) :=
  handleChange_persist_before_notify newAuditManager [0, 1] 5 "orders"
    sampleDelete sampleDeleteRecord rfl (by decide)

/-- Claim C8: a throwing user transform is confined to its single event:
the handler for that event commits nothing (its effect trace is empty),
the feed keeps dispatching (the trace list covers every event of the
history), and every other event is processed exactly as it would be on its
own. -/
theorem transform_failure_isolated (observers : List Nat) (now : Nat)
    (s : MState) (collName : String) (events : List ChangeEvent) (i : Nat)
    (e : ChangeEvent) (hi : events.get? i = some e)
    (hfail : (createAuditDoc s now e collName).1.isOk = false) :
    (processFeed observers now s collName events).length = events.length ∧
    (processFeed observers now s collName events).get? i = some [] ∧
    (∀ j ej, j ≠ i → events.get? j = some ej →
      (processFeed observers now s collName events).get? j
        = some (handleChange observers now s collName ej).1) := by
  have hempty : (handleChange observers now s collName e).1 = [] := by
    simp only [handleChange]
    cases hc : (createAuditDoc s now e collName).1 with
    | error msg => simp [hc]
    | ok r =>
      rw [hc] at hfail
      simp [Except.isOk, Except.toBool] at hfail
  refine ⟨?_, ?_, ?_⟩
  · simp [processFeed]
  · simp only [processFeed]
    rw [List.get?_map, hi]
    simp [hempty]
  · intro j ej hji hj
    simp only [processFeed]
    rw [List.get?_map, hj]
    rfl

/-- Claim C8 witness: a two-event history on one feed in which the second
event makes the transform throw; the first is still committed and notified,
the second leaves no trace. -/
theorem transform_failure_isolated_witness :
    (processFeed [0] 4 throwingState "users" [okChange, badChange]).length
        = [okChange, badChange].length ∧
    (processFeed [0] 4 throwingState "users"
        [okChange, badChange]).get? 1 = some [] ∧
    (∀ j ej, j ≠ 1 → [okChange, badChange].get? j = some ej →
      (processFeed [0] 4 throwingState "users"
          [okChange, badChange]).get? j
        = some (handleChange [0] 4 throwingState "users" ej).1) :=
  transform_failure_isolated [0] 4 throwingState "users"
    [okChange, badChange] 1 badChange rfl (by decide)

end MongoAudit
